import Mathlib

/-!
Verification of the cargo-outdated dependency checker against its design
specification.  The repository ships `src/main.rs` (CLI glue: argument
declarations, the `execute` driver and the `is_file` path validator); the
core modules (`config.rs`, `lockfile.rs`, `deps.rs`) are declared in
`main.rs` but their sources are absent, so the Version Model, Lockfile
Model, Dependency Graph Walker and Outdated Resolver are modelled from the
specification, as marked on each definition.
-/

/-- Modelled from the spec: the Version Model of §4.1, whose source
(`lockfile.rs` / `deps.rs`) is absent from the repository.  A parsed
semantic version is its numeric `major.minor.patch` triple; pre-release
and build-metadata suffixes are omitted (the spec's §9 marks their policy
as an open question and no claim exercises them). -/
structure Version where
  major : Nat
  minor : Nat
  patch : Nat
deriving DecidableEq, Repr

/-- Modelled from the spec: the strict total order of §4.1's
`compare(a, b)`, lexicographic on the numeric triple. -/
def vlt (a b : Version) : Bool :=
  decide (a.major < b.major ∨
    (a.major = b.major ∧ (a.minor < b.minor ∨
      (a.minor = b.minor ∧ a.patch < b.patch))))

/-- Modelled from the spec: §4.1's compatibility predicate, whose source
is absent from the repository.  `candidate` and `baseline` are compatible
when they share the same breaking-change boundary: same major number when
the major is at least 1, same major and minor number when the major is 0. -/
def is_compatible (candidate baseline : Version) : Bool :=
  if baseline.major = 0 then
    candidate.major = 0 && candidate.minor = baseline.minor
  else
    candidate.major = baseline.major

/-- Modelled from the spec: the maximum of a list of versions under the
Version Model's total order (`none` on the empty list), the primitive the
Outdated Resolver of §4.4 uses for both of its maxima. -/
def maxVersion : List Version → Option Version
  | [] => none
  | v :: vs =>
    match maxVersion vs with
    | none => some v
    | some m => some (if vlt m v then v else m)

/-- Modelled from the spec: the Outdated Resolver of §4.4, whose source
(`lockfile.rs` / `deps.rs`) is absent from the repository.
`latest_ver` is the maximum published version strictly greater than the
pinned `project_ver`, or `none` when no published version is strictly
greater. -/
def latest_ver (project_ver : Version) (published : List Version) : Option Version :=
  maxVersion (published.filter (fun v => vlt project_ver v))

/-- Modelled from the spec: the Outdated Resolver of §4.4.  `semver_ver`
is the maximum published version strictly greater than the pinned
`project_ver` and compatible with it per §4.1's predicate, or `none`
when no such version exists. -/
def semver_ver (project_ver : Version) (published : List Version) : Option Version :=
  maxVersion (published.filter
    (fun v => vlt project_ver v && is_compatible v project_ver))

/-- Modelled from the spec: the Outdated Record of §3, with versions in
place of the rendered strings the presentation layer receives. -/
structure OutdatedRecord where
  name : String
  project_ver : Version
  semver_ver : Option Version
  latest_ver : Option Version
deriving DecidableEq, Repr

/-- Modelled from the spec: §4.4's per-package resolution step — an
Outdated Record is produced exactly when `latest_ver` is present. -/
def resolve (name : String) (project_ver : Version) (published : List Version) :
    Option OutdatedRecord :=
  match latest_ver project_ver published with
  | none => none
  | some l =>
    some ⟨name, project_ver, semver_ver project_ver published, some l⟩

/-- Modelled from the spec: a package visited by the walker, identified by
name and pinned version (§3's Package Identity). -/
structure PkgEntry where
  name : String
  version : Version
deriving DecidableEq, Repr

/-- Whether a registry query succeeded. -/
def regOk (r : Except String (List Version)) : Bool :=
  match r with
  | Except.ok _ => true
  | Except.error _ => false

/-- Modelled from the spec: the resolver pass of §4.4 and §7 over the
walker's package sequence, whose source is absent from the repository.
A `RegistryUnavailable` answer for one package is recorded as a
per-package failure while evaluation continues with the rest, yielding
partial results: the list of Outdated Records alongside the list of
package names that could not be checked. -/
def run_resolver (registry : String → Except String (List Version)) :
    List PkgEntry → List OutdatedRecord × List String
  | [] => ([], [])
  | p :: ps =>
    let rest := run_resolver registry ps
    match registry p.name with
    | Except.error _ => (rest.1, p.name :: rest.2)
    | Except.ok published =>
      match resolve p.name p.version published with
      | none => rest
      | some r => (r :: rest.1, rest.2)

/-- Modelled from the spec: a Lockfile Entry (§3) — one resolved package
with its declared dependency edges, each an exact name+version pin. -/
structure Entry where
  name : String
  version : Version
  deps : List (String × Version)
deriving DecidableEq, Repr

/-- The Package Identity key of an entry (§4.3's visited-set key). -/
def entryKey (e : Entry) : String × Version :=
  (e.name, e.version)

/-- Modelled from the spec: the Dependency Graph's lookup of an entry by
the exact name+version pin recorded on an edge (§3, §4.2). -/
def findEntry (g : List Entry) (n : String) (v : Version) : Option Entry :=
  g.find? (fun e => e.name = n && e.version = v)

/-- Modelled from the spec: the resolved entries of one entry's declared
dependency edges, in declaration order (§4.2: edges reference resolved
entries by name and version as literally recorded). -/
def childEntries (g : List Entry) (e : Entry) : List Entry :=
  e.deps.filterMap (fun d => findEntry g d.1 d.2)

/-- Modelled from the spec: §4.3's visited-set bookkeeping — keep the
first occurrence of each Package Identity in discovery order, dropping
entries whose key is already visited, and return the extended visited
set. -/
def dedupNew (visited : List (String × Version)) :
    List Entry → List Entry × List (String × Version)
  | [] => ([], visited)
  | e :: rest =>
    if entryKey e ∈ visited then dedupNew visited rest
    else
      let r := dedupNew (entryKey e :: visited) rest
      (e :: r.1, r.2)

/-- One fewer remaining depth level; `none` is §4.3's unbounded depth. -/
def decDepth : Option Nat → Option Nat
  | none => none
  | some 0 => some 0
  | some (n + 1) => some n

/-- Modelled from the spec: the layer expansion of §4.3's breadth-first
traversal.  Each step expands the current layer's declared dependencies,
keeps the not-yet-visited ones in discovery order, and recurses with one
fewer remaining depth level; the fuel argument bounds the number of layer
expansions and is instantiated so it never runs out before the frontier
empties. -/
def walkAux (g : List Entry) :
    Nat → Option Nat → List Entry → List (String × Version) → List Entry
  | 0, _, _, _ => []
  | fuel + 1, depthLeft, layer, visited =>
    if depthLeft = some 0 then []
    else
      let nl := dedupNew visited (layer.flatMap (childEntries g))
      nl.1 ++ walkAux g fuel (decDepth depthLeft) nl.1 nl.2

/-- Modelled from the spec: the Dependency Graph Walker of §4.3, whose
source (`deps.rs`) is absent from the repository.  Breadth-first from the
Root Set, bounded by the optional depth (depth 0 is the roots
themselves), output in discovery order with each Package Identity visited
once. -/
def walk (g : List Entry) (roots : List Entry) (depth : Option Nat) : List Entry :=
  let start := dedupNew [] roots
  start.1 ++ walkAux g (g.length + 1) depth start.1 start.2

/-- Modelled from the spec: root-deps-only mode (§4.3 and the
`--root-deps-only` flag of `main.rs`, equivalent to depth = 1) evaluates
only the declared dependencies of the roots — the walker's depth-1 layer,
without the roots themselves and without their transitive closure. -/
def root_deps_only (g : List Entry) (roots : List Entry) : List Entry :=
  let start := dedupNew [] roots
  walkAux g (g.length + 1) (some 1) start.1 start.2

/-- Modelled from the spec: `lockfile.rs`'s `get_updates` signalling
convention, whose source is absent from the repository — the Result Set
is handed back as `none` when empty (§4.5's canonical all-up-to-date
signal) and as `some` of the record list otherwise. -/
def get_updates_signal (rs : List OutdatedRecord) : Option (List OutdatedRecord) :=
  if rs.isEmpty then none else some rs

/-- The all-up-to-date message printed by `execute` in `main.rs`. -/
def upToDateMsg : String :=
  "All dependencies are up to date, yay!"

/-- The greeting line printed by `execute` in `main.rs` before the table. -/
def greeting : String :=
  "The following dependencies have newer versions available:\n"

/-- The table header written by `execute` in `main.rs`: columns Name,
Project Ver, SemVer Compat, Latest Ver. -/
def tableHeader : String :=
  "\tName\tProject Ver\tSemVer Compat\tLatest Ver\n"

/-- The placeholder `execute` in `main.rs` prints for an absent
`semver_ver` or `latest_ver`. -/
def placeholder : String :=
  "  --  "

/-- Rendering of a version as `major.minor.patch`. -/
def showVersion (v : Version) : String :=
  toString v.major ++ "." ++ toString v.minor ++ "." ++ toString v.patch

/-- The table row written by `execute` in `main.rs` for one record,
with `placeholder` substituted for each absent optional field. -/
def renderRecord (d : OutdatedRecord) : String :=
  "\t" ++ d.name ++ "\t   " ++ showVersion d.project_ver ++ "\t   " ++
    (match d.semver_ver with
     | some v => showVersion v
     | none => placeholder) ++ "\t  " ++
    (match d.latest_ver with
     | some v => showVersion v
     | none => placeholder) ++ "\n"

/-- The `execute` driver of `main.rs` (lines 170–212), over the Result
Set that `get_updates` computed: on a non-empty Result Set it prints the
greeting, the table header and one row per record and returns the
configured exit code; on an empty Result Set it prints the up-to-date
message and returns 0.  The returned pair is (printed lines, exit code). -/
def execute (exit_code : Int) (rs : List OutdatedRecord) : List String × Int :=
  match get_updates_signal rs with
  | some res => (greeting :: tableHeader :: res.map renderRecord, exit_code)
  | none => ([upToDateMsg], 0)

/-- The default value of the `--exit-code` option declared in `main.rs`
(line 147): the string "0". -/
def exit_code_arg_default : String :=
  "0"

/-- The numeric value of a decimal digit character, `none` otherwise. -/
def digitVal (c : Char) : Option Nat :=
  if 48 ≤ c.toNat && c.toNat ≤ 57 then some (c.toNat - 48) else none

/-- Accumulating decimal parser over a character list. -/
def parseNatAux : List Char → Nat → Option Nat
  | [], acc => some acc
  | c :: cs, acc =>
    match digitVal c with
    | none => none
    | some d => parseNatAux cs (acc * 10 + d)

/-- Decimal parsing of a non-empty all-digit string, as the CLI layer
parses numeric option values. -/
def parseNat (s : String) : Option Nat :=
  match s.data with
  | [] => none
  | cs => parseNatAux cs 0

/-- Modelled from the spec: the numeric exit-code configuration value
produced from the command line (`config.rs` is absent from the
repository) — the supplied `--exit-code` argument, or the declared
default when the option is not supplied, parsed as a number. -/
def exit_code_of_matches (supplied : Option String) : Option Nat :=
  parseNat (supplied.getD exit_code_arg_default)

/-- The conflict declared on the argument set of `main.rs` (line 150):
`--root-deps-only` conflicts with `--depth`. -/
def arg_conflicts : List (String × String) :=
  [("root-deps-only", "depth")]

/-- Modelled from the spec: clap's conflict validation over the set of
options present on the command line — the parse is accepted only when no
declared conflicting pair is simultaneously present. -/
def conflict_free (supplied : List String) : Bool :=
  arg_conflicts.all (fun c => !(decide (c.1 ∈ supplied) && decide (c.2 ∈ supplied)))

/-- Modelled from the spec: the command-line pipeline of `main.rs` —
argument parsing runs first and rejects a conflicting command line before
the lockfile is consumed; otherwise `execute` runs on the Result Set the
lockfile yields. -/
def run_cli (supplied : List String) (exit_code : Int)
    (lockfile_result : List OutdatedRecord) : Except String (List String × Int) :=
  if conflict_free supplied then Except.ok (execute exit_code lockfile_result)
  else Except.error "argument conflict: root-deps-only cannot be used with depth"

/-- Splitting a character list on the path separator, mirroring
`String.splitOn` with separator "/". -/
def splitSlash : List Char → List (List Char)
  | [] => [[]]
  | c :: rest =>
    match splitSlash rest with
    | [] => [[]]
    | head :: tail =>
      if c = '/' then [] :: head :: tail
      else (c :: head) :: tail

/-- Modelled from the spec: the component list of `std::path::Path` on a
Unix path string — split on the separator, with empty components and
current-directory components removed. -/
def pathComponents (s : String) : List String :=
  ((splitSlash s.data).map (fun cs => String.mk cs)).filter
    (fun c => c ≠ "" && c ≠ ".")

/-- Modelled from the spec: `Path::file_name` of the Rust standard
library — the final component of the path, provided it is a normal
component (not a parent-directory reference, not a root, not empty). -/
def file_name (s : String) : Option String :=
  match (pathComponents s).getLast? with
  | none => none
  | some c => if c = ".." then none else some c

/-- An apostrophe, built by code point to quote the offending path in
`is_file`'s error message. -/
def quoteChar : String :=
  String.singleton (Char.ofNat 39)

/-- The `is_file` validator of `main.rs` (lines 214–220): `Err` with a
message naming the input exactly when the path has no final file-name
component, `Ok` otherwise; the filesystem is never consulted. -/
def is_file (s : String) : Except String Unit :=
  match file_name s with
  | none =>
    Except.error (quoteChar ++ s ++ quoteChar ++
      " doesn" ++ quoteChar ++ "t appear to be a valid file name")
  | some _ => Except.ok ()

/-- Whether a validator result is `Ok`. -/
def resultIsOk (r : Except String Unit) : Bool :=
  match r with
  | Except.ok _ => true
  | Except.error _ => false

theorem vlt_iff (a b : Version) :
    vlt a b = true ↔
      (a.major < b.major ∨
        (a.major = b.major ∧ (a.minor < b.minor ∨
          (a.minor = b.minor ∧ a.patch < b.patch)))) := by
  simp [vlt]

theorem vlt_irrefl (a : Version) : vlt a a = false := by
  simp [vlt]

theorem vlt_trans {a b c : Version} (h1 : vlt a b = true) (h2 : vlt b c = true) :
    vlt a c = true := by
  rw [vlt_iff] at h1 h2 ⊢
  omega

theorem vlt_antisymm {a b : Version} (h1 : vlt a b = false) (h2 : vlt b a = false) :
    a = b := by
  cases a; cases b
  simp only [vlt, decide_eq_false_iff_not] at h1 h2
  simp only [Version.mk.injEq]
  omega

theorem vlt_total (a b : Version) :
    vlt a b = true ∨ vlt b a = true ∨ a = b := by
  by_cases h1 : vlt a b = true
  · exact Or.inl h1
  · by_cases h2 : vlt b a = true
    · exact Or.inr (Or.inl h2)
    · exact Or.inr (Or.inr (vlt_antisymm (by simpa using h1) (by simpa using h2)))

theorem maxVersion_eq_none_iff (l : List Version) :
    maxVersion l = none ↔ l = [] := by
  cases l with
  | nil => simp [maxVersion]
  | cons v vs =>
    simp only [maxVersion]
    cases maxVersion vs <;> simp

theorem maxVersion_some (l : List Version) (m : Version)
    (h : maxVersion l = some m) :
    m ∈ l ∧ ∀ x ∈ l, vlt m x = false := by
  induction l generalizing m with
  | nil => simp [maxVersion] at h
  | cons v vs ih =>
    simp only [maxVersion] at h
    cases hvs : maxVersion vs with
    | none =>
      rw [hvs] at h
      have hnil : vs = [] := (maxVersion_eq_none_iff vs).mp hvs
      subst hnil
      simp only [Option.some.injEq] at h
      subst h
      simp [vlt_irrefl]
    | some m' =>
      rw [hvs] at h
      simp only [Option.some.injEq] at h
      obtain ⟨hm', hge⟩ := ih m' hvs
      by_cases hlt : vlt m' v = true
      · rw [if_pos hlt] at h
        subst h
        refine ⟨List.mem_cons_self _ _, ?_⟩
        intro x hx
        rcases List.mem_cons.mp hx with rfl | hx'
        · exact vlt_irrefl x
        · by_contra hc
          simp only [Bool.not_eq_false] at hc
          have : vlt m' x = true := vlt_trans hlt hc
          rw [hge x hx'] at this
          exact Bool.false_ne_true this
      · rw [if_neg hlt] at h
        subst h
        refine ⟨List.mem_cons_of_mem _ hm', ?_⟩
        intro x hx
        rcases List.mem_cons.mp hx with rfl | hx'
        · simpa using hlt
        · exact hge x hx'

theorem maxVersion_some_iff (l : List Version) (m : Version) :
    maxVersion l = some m ↔ m ∈ l ∧ ∀ x ∈ l, vlt m x = false := by
  constructor
  · exact maxVersion_some l m
  · rintro ⟨hmem, hge⟩
    cases hmax : maxVersion l with
    | none =>
      rw [maxVersion_eq_none_iff] at hmax
      subst hmax
      simp at hmem
    | some m' =>
      obtain ⟨hm', hge'⟩ := maxVersion_some l m' hmax
      have : m' = m := vlt_antisymm (hge' m hmem) (hge m' hm')
      rw [this]

/-- C2: `is_compatible(candidate, baseline)` is true exactly when the two
versions share the same breaking-change boundary — equal major number when
the major is at least 1, and equal major and minor numbers when the major
is 0 — and in particular `is_compatible(v, v)` always holds. -/
theorem c2_is_compatible_characterization :
    (∀ candidate baseline : Version,
      is_compatible candidate baseline = true ↔
        (if baseline.major = 0 then
          candidate.major = baseline.major ∧ candidate.minor = baseline.minor
        else
          candidate.major = baseline.major)) ∧
    (∀ v : Version, is_compatible v v = true) := by
  constructor
  · intro candidate baseline
    by_cases h : baseline.major = 0 <;>
      simp [is_compatible, h]
  · intro v
    by_cases h : v.major = 0 <;>
      simp [is_compatible, h]

theorem latest_ver_some_iff (project_ver : Version) (published : List Version)
    (m : Version) :
    latest_ver project_ver published = some m ↔
      (m ∈ published ∧ vlt project_ver m = true ∧
        ∀ x ∈ published, vlt project_ver x = true → vlt m x = false) := by
  rw [latest_ver, maxVersion_some_iff]
  simp only [List.mem_filter]
  tauto

theorem latest_ver_none_iff (project_ver : Version) (published : List Version) :
    latest_ver project_ver published = none ↔
      ∀ x ∈ published, vlt project_ver x = false := by
  rw [latest_ver, maxVersion_eq_none_iff, List.filter_eq_nil_iff]
  simp

theorem semver_ver_some_iff (project_ver : Version) (published : List Version)
    (m : Version) :
    semver_ver project_ver published = some m ↔
      (m ∈ published ∧ vlt project_ver m = true ∧
        is_compatible m project_ver = true ∧
        ∀ x ∈ published, vlt project_ver x = true →
          is_compatible x project_ver = true → vlt m x = false) := by
  rw [semver_ver, maxVersion_some_iff]
  simp only [List.mem_filter, Bool.and_eq_true]
  constructor
  · rintro ⟨⟨hm, hgt, hc⟩, hge⟩
    exact ⟨hm, hgt, hc, fun x hx hgx hcx => hge x ⟨hx, hgx, hcx⟩⟩
  · rintro ⟨hm, hgt, hc, hge⟩
    exact ⟨⟨hm, hgt, hc⟩, fun x hx => hge x hx.1 hx.2.1 hx.2.2⟩

theorem semver_ver_none_iff (project_ver : Version) (published : List Version) :
    semver_ver project_ver published = none ↔
      ∀ x ∈ published, vlt project_ver x = true →
        is_compatible x project_ver = false := by
  rw [semver_ver, maxVersion_eq_none_iff, List.filter_eq_nil_iff]
  constructor
  · intro h x hx hgx
    have := h x hx
    simp only [Bool.and_eq_true, not_and] at this
    simpa using this hgx
  · intro h x hx
    simp only [Bool.and_eq_true, not_and]
    intro hgx
    simp [h x hx hgx]

/-- C1: for every package entry visited by the walker with pinned version
`project_ver` and every registry-published version set, the Outdated
Resolver computes `latest_ver` as the maximum published version strictly
greater than `project_ver` (absent when none exists), computes
`semver_ver` as the maximum published version strictly greater than and
compatible with `project_ver` (absent when none exists), and produces an
Outdated Record if and only if `latest_ver` is present. -/
theorem c1_outdated_resolver_characterization
    (name : String) (project_ver : Version) (published : List Version) :
    ((resolve name project_ver published).isSome =
      (latest_ver project_ver published).isSome) ∧
    (∀ m, latest_ver project_ver published = some m ↔
      (m ∈ published ∧ vlt project_ver m = true ∧
        ∀ x ∈ published, vlt project_ver x = true → vlt m x = false)) ∧
    (latest_ver project_ver published = none ↔
      ∀ x ∈ published, vlt project_ver x = false) ∧
    (∀ m, semver_ver project_ver published = some m ↔
      (m ∈ published ∧ vlt project_ver m = true ∧
        is_compatible m project_ver = true ∧
        ∀ x ∈ published, vlt project_ver x = true →
          is_compatible x project_ver = true → vlt m x = false)) ∧
    (semver_ver project_ver published = none ↔
      ∀ x ∈ published, vlt project_ver x = true →
        is_compatible x project_ver = false) ∧
    (∀ r, resolve name project_ver published = some r →
      r.name = name ∧ r.project_ver = project_ver ∧
      r.latest_ver = latest_ver project_ver published ∧
      r.semver_ver = semver_ver project_ver published) := by
  refine ⟨?_, latest_ver_some_iff project_ver published,
    latest_ver_none_iff project_ver published,
    semver_ver_some_iff project_ver published,
    semver_ver_none_iff project_ver published, ?_⟩
  · rw [resolve]
    cases latest_ver project_ver published <;> simp
  · intro r hr
    rw [resolve] at hr
    cases hl : latest_ver project_ver published with
    | none => rw [hl] at hr; simp at hr
    | some l =>
      rw [hl] at hr
      simp only [Option.some.injEq] at hr
      subst hr
      exact ⟨rfl, rfl, rfl, rfl⟩

/-- Witness for C1 at the spec's §8 example: pinned 1.2.0 against the
published set containing 1.2.0, 1.2.5, 1.3.0 and 2.0.0 yields
latest 2.0.0 and semver-compatible 1.3.0, and a record is produced. -/
theorem c1_witness :
    latest_ver ⟨1, 2, 0⟩ [⟨1, 2, 0⟩, ⟨1, 2, 5⟩, ⟨1, 3, 0⟩, ⟨2, 0, 0⟩] =
      some ⟨2, 0, 0⟩ ∧
    semver_ver ⟨1, 2, 0⟩ [⟨1, 2, 0⟩, ⟨1, 2, 5⟩, ⟨1, 3, 0⟩, ⟨2, 0, 0⟩] =
      some ⟨1, 3, 0⟩ ∧
    (resolve "dep" ⟨1, 2, 0⟩ [⟨1, 2, 0⟩, ⟨1, 2, 5⟩, ⟨1, 3, 0⟩, ⟨2, 0, 0⟩]).isSome =
      true := by
  have h := c1_outdated_resolver_characterization "dep" ⟨1, 2, 0⟩
    [⟨1, 2, 0⟩, ⟨1, 2, 5⟩, ⟨1, 3, 0⟩, ⟨2, 0, 0⟩]
  refine ⟨(h.2.1 ⟨2, 0, 0⟩).mpr (by decide),
    (h.2.2.2.1 ⟨1, 3, 0⟩).mpr (by decide), ?_⟩
  rw [h.1, (h.2.1 ⟨2, 0, 0⟩).mpr (by decide)]
  rfl

theorem run_resolver_eq (registry : String → Except String (List Version))
    (pkgs : List PkgEntry) :
    run_resolver registry pkgs =
      (pkgs.filterMap (fun p =>
        match registry p.name with
        | Except.ok published => resolve p.name p.version published
        | Except.error _ => none),
       (pkgs.filter (fun p => !(regOk (registry p.name)))).map PkgEntry.name) := by
  induction pkgs with
  | nil => simp [run_resolver]
  | cons p ps ih =>
    simp only [run_resolver, ih]
    cases hreg : registry p.name with
    | error e => simp [List.filterMap_cons, List.filter_cons, hreg, regOk]
    | ok published =>
      cases hres : resolve p.name p.version published with
      | none => simp [List.filterMap_cons, List.filter_cons, hreg, hres, regOk]
      | some r => simp [List.filterMap_cons, List.filter_cons, hreg, hres, regOk]

theorem resolve_some_outdated {name : String} {project_ver : Version}
    {published : List Version} {r : OutdatedRecord}
    (h : resolve name project_ver published = some r) :
    ∃ l, r.latest_ver = some l ∧ vlt r.project_ver l = true := by
  rw [resolve] at h
  cases hl : latest_ver project_ver published with
  | none => rw [hl] at h; simp at h
  | some l =>
    rw [hl] at h
    simp only [Option.some.injEq] at h
    subst h
    obtain ⟨-, hgt, -⟩ := (latest_ver_some_iff project_ver published l).mp hl
    exact ⟨l, rfl, hgt⟩

/-- C3: the Result Set never contains an entry whose pinned version is
already the maximum of the published versions — the resolver emits no
record when no published version is strictly greater than the pinned one,
and every record a run produces carries a latest version strictly greater
than its pinned version. -/
theorem c3_up_to_date_packages_omitted :
    (∀ (name : String) (project_ver : Version) (published : List Version),
      (∀ v ∈ published, vlt project_ver v = false) →
      resolve name project_ver published = none) ∧
    (∀ (registry : String → Except String (List Version)) (pkgs : List PkgEntry)
        (r : OutdatedRecord),
      r ∈ (run_resolver registry pkgs).1 →
      ∃ l, r.latest_ver = some l ∧ vlt r.project_ver l = true) := by
  constructor
  · intro name project_ver published h
    rw [resolve, (latest_ver_none_iff project_ver published).mpr h]
  · intro registry pkgs r hr
    rw [run_resolver_eq] at hr
    simp only [List.mem_filterMap] at hr
    obtain ⟨p, -, hp⟩ := hr
    cases hreg : registry p.name with
    | error e => rw [hreg] at hp; simp at hp
    | ok published =>
      rw [hreg] at hp
      exact resolve_some_outdated hp

/-- Witness for C3: a package pinned at the highest published version
(2.0.0 among 1.0.0, 1.5.0, 2.0.0) yields no Outdated Record. -/
theorem c3_witness :
    resolve "dep" ⟨2, 0, 0⟩ [⟨1, 0, 0⟩, ⟨1, 5, 0⟩, ⟨2, 0, 0⟩] = none :=
  c3_up_to_date_packages_omitted.1 "dep" ⟨2, 0, 0⟩
    [⟨1, 0, 0⟩, ⟨1, 5, 0⟩, ⟨2, 0, 0⟩] (by decide)

/-- C5: a failed registry query for one package is recorded as a
per-package failure and never discards or aborts the records computed for
other packages: the run's outcome is, package by package, the record its
own successful query yields, alongside the names of the packages whose
query failed; removing a failing package from the walk leaves the record
list unchanged. -/
theorem c5_registry_failure_partial_results :
    (∀ (registry : String → Except String (List Version)) (pkgs : List PkgEntry),
      run_resolver registry pkgs =
        (pkgs.filterMap (fun p =>
          match registry p.name with
          | Except.ok published => resolve p.name p.version published
          | Except.error _ => none),
         (pkgs.filter (fun p => !(regOk (registry p.name)))).map PkgEntry.name)) ∧
    (∀ (registry : String → Except String (List Version))
        (pre post : List PkgEntry) (p : PkgEntry),
      regOk (registry p.name) = false →
      (run_resolver registry (pre ++ p :: post)).1 =
        (run_resolver registry (pre ++ post)).1 ∧
      p.name ∈ (run_resolver registry (pre ++ p :: post)).2) := by
  refine ⟨run_resolver_eq, ?_⟩
  intro registry pre post p hfail
  have hnone :
      (match registry p.name with
        | Except.ok published => resolve p.name p.version published
        | Except.error _ => none) = (none : Option OutdatedRecord) := by
    cases hreg : registry p.name with
    | error e => simp
    | ok published => rw [hreg, regOk] at hfail; simp at hfail
  constructor
  · rw [run_resolver_eq, run_resolver_eq]
    simp [List.filterMap_append, List.filterMap_cons, hnone]
  · rw [run_resolver_eq]
    simp only [List.mem_map]
    refine ⟨p, ?_, rfl⟩
    rw [List.mem_filter]
    exact ⟨List.mem_append_right pre (List.mem_cons_self p post), by simp [hfail]⟩

/-- Witness for C5: with the registry down for package "bad" only, the
run over a, bad, c computes the same records as the run over a, c and
reports "bad" among the failures. -/
theorem c5_witness :
    (run_resolver
        (fun n => if n = "bad" then Except.error "registry unavailable"
          else Except.ok [⟨1, 1, 0⟩, ⟨2, 0, 0⟩])
        ([⟨"a", ⟨1, 0, 0⟩⟩] ++ ⟨"bad", ⟨1, 0, 0⟩⟩ :: [⟨"c", ⟨2, 0, 0⟩⟩])).1 =
      (run_resolver
        (fun n => if n = "bad" then Except.error "registry unavailable"
          else Except.ok [⟨1, 1, 0⟩, ⟨2, 0, 0⟩])
        ([⟨"a", ⟨1, 0, 0⟩⟩] ++ [⟨"c", ⟨2, 0, 0⟩⟩])).1 ∧
    (PkgEntry.mk "bad" ⟨1, 0, 0⟩).name ∈
      (run_resolver
        (fun n => if n = "bad" then Except.error "registry unavailable"
          else Except.ok [⟨1, 1, 0⟩, ⟨2, 0, 0⟩])
        ([⟨"a", ⟨1, 0, 0⟩⟩] ++ ⟨"bad", ⟨1, 0, 0⟩⟩ :: [⟨"c", ⟨2, 0, 0⟩⟩])).2 :=
  c5_registry_failure_partial_results.2
    (fun n => if n = "bad" then Except.error "registry unavailable"
      else Except.ok [⟨1, 1, 0⟩, ⟨2, 0, 0⟩])
    [⟨"a", ⟨1, 0, 0⟩⟩] [⟨"c", ⟨2, 0, 0⟩⟩] ⟨"bad", ⟨1, 0, 0⟩⟩ (by decide)

/-- C4: on a run that completes without a hard error, the process exit
code is 0 when the Result Set is empty and is the caller-supplied
exit-code value when the Result Set is non-empty. -/
theorem c4_exit_code_convention (exit_code : Int) (rs : List OutdatedRecord) :
    (rs = [] → (execute exit_code rs).2 = 0) ∧
    (rs ≠ [] → (execute exit_code rs).2 = exit_code) := by
  cases rs with
  | nil => exact ⟨fun _ => rfl, fun h => absurd rfl h⟩
  | cons r rest =>
    refine ⟨fun h => by simp at h, fun _ => ?_⟩
    simp [execute, get_updates_signal]

/-- Witness for C4: with configured exit code 101, the empty Result Set
exits 0 and a one-record Result Set exits 101. -/
theorem c4_witness :
    (execute 101 []).2 = 0 ∧
    (execute 101 [⟨"dep", ⟨1, 0, 0⟩, some ⟨1, 1, 0⟩, some ⟨2, 0, 0⟩⟩]).2 = 101 :=
  ⟨(c4_exit_code_convention 101 []).1 rfl,
   (c4_exit_code_convention 101 [⟨"dep", ⟨1, 0, 0⟩, some ⟨1, 1, 0⟩, some ⟨2, 0, 0⟩⟩]).2
     (by simp)⟩

/-- C7: a non-empty Result Set is rendered as the greeting plus a table
whose header names the Name, Project Version, SemVer-Compatible Version
and Latest Version columns and whose rows substitute the placeholder for
each absent `semver_ver` or `latest_ver`; the empty Result Set prints the
single up-to-date message instead. -/
theorem c7_presentation (exit_code : Int) (rs : List OutdatedRecord) :
    ((execute exit_code []).1 = [upToDateMsg]) ∧
    (rs ≠ [] →
      (execute exit_code rs).1 = greeting :: tableHeader :: rs.map renderRecord) ∧
    (∀ (n : String) (pv : Version) (lv : Option Version),
      renderRecord ⟨n, pv, none, lv⟩ =
        "\t" ++ n ++ "\t   " ++ showVersion pv ++ "\t   " ++ placeholder ++
          "\t  " ++
          (match lv with
           | some v => showVersion v
           | none => placeholder) ++ "\n") ∧
    (∀ (n : String) (pv : Version) (sv : Option Version),
      renderRecord ⟨n, pv, sv, none⟩ =
        "\t" ++ n ++ "\t   " ++ showVersion pv ++ "\t   " ++
          (match sv with
           | some v => showVersion v
           | none => placeholder) ++ "\t  " ++ placeholder ++ "\n") := by
  refine ⟨rfl, ?_, fun n pv lv => rfl, fun n pv sv => rfl⟩
  intro h
  cases rs with
  | nil => exact absurd rfl h
  | cons r rest => simp [execute, get_updates_signal]

/-- Witness for C7: a one-record Result Set renders as the greeting, the
header and that record's row. -/
theorem c7_witness :
    (execute 1 [⟨"libc", ⟨0, 2, 0⟩, some ⟨0, 2, 5⟩, some ⟨1, 0, 0⟩⟩]).1 =
      greeting :: tableHeader ::
        [renderRecord ⟨"libc", ⟨0, 2, 0⟩, some ⟨0, 2, 5⟩, some ⟨1, 0, 0⟩⟩] :=
  (c7_presentation 1 [⟨"libc", ⟨0, 2, 0⟩, some ⟨0, 2, 5⟩, some ⟨1, 0, 0⟩⟩]).2.1
    (by simp)

/-- C8: when `--exit-code` is not supplied it defaults to the string "0",
so the configured exit code is 0 and a run that finds outdated
dependencies exits with the same status, 0, as an all-up-to-date run. -/
theorem c8_default_exit_code_zero :
    exit_code_of_matches none = some 0 ∧
    (∀ rs : List OutdatedRecord, (execute 0 rs).2 = 0) ∧
    (∀ rs rs' : List OutdatedRecord, (execute 0 rs).2 = (execute 0 rs').2) := by
  refine ⟨by decide, fun rs => ?_, fun rs rs' => ?_⟩
  · cases rs with
    | nil => rfl
    | cons r rest => simp [execute, get_updates_signal]
  · cases rs with
    | nil =>
      cases rs' with
      | nil => rfl
      | cons r rest => simp [execute, get_updates_signal]
    | cons r rest =>
      cases rs' with
      | nil => simp [execute, get_updates_signal]
      | cons r' rest' => simp [execute, get_updates_signal]

/-- C10: a command line supplying both `--root-deps-only` and `--depth`
is rejected by argument validation, with an outcome independent of any
lockfile contents — the run fails before the lockfile is consumed. -/
theorem c10_root_deps_only_conflicts_depth
    (supplied : List String) (exit_code : Int)
    (lf lf' : List OutdatedRecord)
    (h1 : "root-deps-only" ∈ supplied) (h2 : "depth" ∈ supplied) :
    (∃ e, run_cli supplied exit_code lf = Except.error e) ∧
    run_cli supplied exit_code lf = run_cli supplied exit_code lf' := by
  have hcf : conflict_free supplied = false := by
    simp [conflict_free, arg_conflicts, h1, h2]
  rw [run_cli, run_cli, hcf]
  simp

/-- Witness for C10: the command line with both flags present is rejected
whatever the lockfile would have yielded. -/
theorem c10_witness :
    (∃ e, run_cli ["root-deps-only", "depth"] 7 [] = Except.error e) ∧
    run_cli ["root-deps-only", "depth"] 7 [] =
      run_cli ["root-deps-only", "depth"] 7
        [⟨"dep", ⟨1, 0, 0⟩, none, some ⟨2, 0, 0⟩⟩] :=
  c10_root_deps_only_conflicts_depth ["root-deps-only", "depth"] 7 []
    [⟨"dep", ⟨1, 0, 0⟩, none, some ⟨2, 0, 0⟩⟩] (by decide) (by decide)

/-- C9: the `is_file` validator accepts exactly the strings whose path has
a final file-name component — it returns `Err` for the empty string, a
root, or a path ending in a parent-directory reference, and `Ok` for
every other string, never consulting the filesystem. -/
theorem c9_is_file_validator :
    (∀ s : String, resultIsOk (is_file s) = (file_name s).isSome) ∧
    resultIsOk (is_file "") = false ∧
    resultIsOk (is_file "/") = false ∧
    resultIsOk (is_file "foo/..") = false ∧
    resultIsOk (is_file "..") = false ∧
    resultIsOk (is_file "Cargo.toml") = true ∧
    resultIsOk (is_file "/home/user/Cargo.lock") = true := by
  refine ⟨fun s => ?_, by decide, by decide, by decide, by decide, by decide,
    by decide⟩
  rw [is_file]
  cases file_name s <;> simp [resultIsOk]

theorem findEntry_some {g : List Entry} {n : String} {v : Version} {e : Entry}
    (h : findEntry g n v = some e) : e.name = n ∧ e.version = v := by
  rw [findEntry] at h
  have := List.find?_some h
  simpa using this

theorem filterMap_findEntry_keys (g : List Entry) (ds : List (String × Version))
    (h : ∀ d ∈ ds, (findEntry g d.1 d.2).isSome = true) :
    (ds.filterMap (fun d => findEntry g d.1 d.2)).map entryKey = ds := by
  induction ds with
  | nil => rfl
  | cons d rest ih =>
    have hd := h d (List.mem_cons_self d rest)
    cases he : findEntry g d.1 d.2 with
    | none => rw [he] at hd; simp at hd
    | some e =>
      obtain ⟨hn, hv⟩ := findEntry_some he
      rw [List.filterMap_cons, he]
      simp only [List.map_cons]
      rw [ih (fun x hx => h x (List.mem_cons_of_mem d hx))]
      have : entryKey e = d := by
        rw [entryKey, hn, hv]
      rw [this]

theorem dedupNew_fresh (l : List Entry) :
    ∀ visited : List (String × Version),
      (l.map entryKey).Nodup → (∀ e ∈ l, entryKey e ∉ visited) →
      (dedupNew visited l).1 = l := by
  induction l with
  | nil => intro visited _ _; rfl
  | cons e rest ih =>
    intro visited hnd hdis
    rw [dedupNew, if_neg (hdis e (List.mem_cons_self e rest))]
    simp only [List.map_cons, List.nodup_cons] at hnd
    have htail : (dedupNew (entryKey e :: visited) rest).1 = rest := by
      refine ih (entryKey e :: visited) hnd.2 ?_
      intro x hx
      rw [List.mem_cons]
      push_neg
      refine ⟨?_, hdis x (List.mem_cons_of_mem e hx)⟩
      intro hk
      exact hnd.1 (hk ▸ List.mem_map_of_mem entryKey hx)
    simpa using htail

theorem walkAux_depth_zero (g : List Entry) (fuel : Nat) (layer : List Entry)
    (visited : List (String × Version)) :
    walkAux g fuel (some 0) layer visited = [] := by
  cases fuel with
  | zero => rfl
  | succ f => simp [walkAux]

theorem root_deps_only_single (g : List Entry) (r : Entry) :
    root_deps_only g [r] = (dedupNew [entryKey r] (childEntries g r)).1 := by
  simp [root_deps_only, dedupNew, walkAux, walkAux_depth_zero, decDepth]

theorem walk_single_depth_one (g : List Entry) (r : Entry) :
    walk g [r] (some 1) = r :: root_deps_only g [r] := by
  simp [walk, root_deps_only, dedupNew, walkAux, walkAux_depth_zero, decDepth]

/-- C6: on a well-formed graph (no dangling edges, no duplicate edge, no
self-edge at the root), the walker in root-deps-only mode behaves as
depth = 1 exactly — the depth-1 walk is the root followed by precisely
the mode's output — and returns exactly the root's declared direct
dependencies in declaration order: not the root itself and not any
transitively reachable package. -/
theorem c6_root_deps_only_is_direct_deps (g : List Entry) (r : Entry)
    (hres : ∀ d ∈ r.deps, (findEntry g d.1 d.2).isSome = true)
    (hnd : r.deps.Nodup)
    (hself : (r.name, r.version) ∉ r.deps) :
    ((root_deps_only g [r]).map entryKey = r.deps) ∧
    (walk g [r] (some 1) = r :: root_deps_only g [r]) ∧
    (entryKey r ∉ (root_deps_only g [r]).map entryKey) := by
  have hkeys : (childEntries g r).map entryKey = r.deps :=
    filterMap_findEntry_keys g r.deps hres
  have hded : (dedupNew [entryKey r] (childEntries g r)).1 = childEntries g r := by
    refine dedupNew_fresh (childEntries g r) [entryKey r] (hkeys ▸ hnd) ?_
    intro e he
    simp only [List.mem_singleton]
    intro hk
    have : entryKey e ∈ (childEntries g r).map entryKey :=
      List.mem_map_of_mem entryKey he
    rw [hkeys] at this
    rw [hk] at this
    exact hself this
  have hmode : root_deps_only g [r] = childEntries g r := by
    rw [root_deps_only_single, hded]
  refine ⟨by rw [hmode, hkeys], walk_single_depth_one g r, ?_⟩
  rw [hmode, hkeys]
  exact hself

/-- Witness for C6: on a four-package graph where the root app depends
directly on liba and libb and liba depends on libc, root-deps-only mode
returns exactly the keys of liba and libb — without app and without the
transitively reachable libc — and the depth-1 walk is app followed by
that output. -/
theorem c6_witness :
    ((root_deps_only
        [⟨"app", ⟨1, 0, 0⟩, [("liba", ⟨1, 0, 0⟩), ("libb", ⟨0, 2, 0⟩)]⟩,
         ⟨"liba", ⟨1, 0, 0⟩, [("libc", ⟨0, 1, 0⟩)]⟩,
         ⟨"libb", ⟨0, 2, 0⟩, []⟩,
         ⟨"libc", ⟨0, 1, 0⟩, []⟩]
        [⟨"app", ⟨1, 0, 0⟩, [("liba", ⟨1, 0, 0⟩), ("libb", ⟨0, 2, 0⟩)]⟩]).map
          entryKey =
      (Entry.mk "app" ⟨1, 0, 0⟩ [("liba", ⟨1, 0, 0⟩), ("libb", ⟨0, 2, 0⟩)]).deps) ∧
    (walk
        [⟨"app", ⟨1, 0, 0⟩, [("liba", ⟨1, 0, 0⟩), ("libb", ⟨0, 2, 0⟩)]⟩,
         ⟨"liba", ⟨1, 0, 0⟩, [("libc", ⟨0, 1, 0⟩)]⟩,
         ⟨"libb", ⟨0, 2, 0⟩, []⟩,
         ⟨"libc", ⟨0, 1, 0⟩, []⟩]
        [⟨"app", ⟨1, 0, 0⟩, [("liba", ⟨1, 0, 0⟩), ("libb", ⟨0, 2, 0⟩)]⟩]
        (some 1) =
      ⟨"app", ⟨1, 0, 0⟩, [("liba", ⟨1, 0, 0⟩), ("libb", ⟨0, 2, 0⟩)]⟩ ::
        root_deps_only
          [⟨"app", ⟨1, 0, 0⟩, [("liba", ⟨1, 0, 0⟩), ("libb", ⟨0, 2, 0⟩)]⟩,
           ⟨"liba", ⟨1, 0, 0⟩, [("libc", ⟨0, 1, 0⟩)]⟩,
           ⟨"libb", ⟨0, 2, 0⟩, []⟩,
           ⟨"libc", ⟨0, 1, 0⟩, []⟩]
          [⟨"app", ⟨1, 0, 0⟩, [("liba", ⟨1, 0, 0⟩), ("libb", ⟨0, 2, 0⟩)]⟩]) ∧
    (entryKey ⟨"app", ⟨1, 0, 0⟩, [("liba", ⟨1, 0, 0⟩), ("libb", ⟨0, 2, 0⟩)]⟩ ∉
      (root_deps_only
        [⟨"app", ⟨1, 0, 0⟩, [("liba", ⟨1, 0, 0⟩), ("libb", ⟨0, 2, 0⟩)]⟩,
         ⟨"liba", ⟨1, 0, 0⟩, [("libc", ⟨0, 1, 0⟩)]⟩,
         ⟨"libb", ⟨0, 2, 0⟩, []⟩,
         ⟨"libc", ⟨0, 1, 0⟩, []⟩]
        [⟨"app", ⟨1, 0, 0⟩, [("liba", ⟨1, 0, 0⟩), ("libb", ⟨0, 2, 0⟩)]⟩]).map
          entryKey) :=
  c6_root_deps_only_is_direct_deps
    [⟨"app", ⟨1, 0, 0⟩, [("liba", ⟨1, 0, 0⟩), ("libb", ⟨0, 2, 0⟩)]⟩,
     ⟨"liba", ⟨1, 0, 0⟩, [("libc", ⟨0, 1, 0⟩)]⟩,
     ⟨"libb", ⟨0, 2, 0⟩, []⟩,
     ⟨"libc", ⟨0, 1, 0⟩, []⟩]
    ⟨"app", ⟨1, 0, 0⟩, [("liba", ⟨1, 0, 0⟩), ("libb", ⟨0, 2, 0⟩)]⟩
    (by decide) (by decide) (by decide)
